import Mathlib

/-!
Shallow embedding of the qwc-feature-info-service core
(`src/feature_info_service.py`, `src/info_modules/sql/layer_info.py`,
`src/info_modules/wms/layer_info.py`), together with theorems settling the
frozen claims about the natural-language specification.

Conventions of the embedding:
* Python strings are `String`, Python lists are `List`, Python dicts that
  are only used through ordered iteration are association lists
  (`List (String × _)`); a Python `set` of strings is a `Finset String`
  (the service only consumes the permitted-attribute set through
  membership; the final `sorted(list(...))` only fixes presentation
  order).
* Python values flowing through attribute pipelines are the inductive
  `PyValue` (strings, dates, datetimes, `None`, ints; float conversion
  results are kept as their source literal, floating point itself is not
  modelled and no claim touches it).
* Exception control flow is made explicit: a failure point becomes an
  explicit oracle argument (database adapter) or an `Except`/`Option`
  result (value conversion), matching the `try`/`except` structure of the
  source.
-/

namespace FeatureInfo

/-! ## Layer resolver (`FeatureInfoService.expand_group_layers`) -/

/-- Lookup of a group layer name in the `group_layers` dict
(`group_layers.get(layer)` guarded by `layer in group_layers`). -/
def lookupGroup (groupLayers : List (String × List String)) (layer : String) :
    Option (List String) :=
  (groupLayers.find? (fun p => p.1 = layer)).map (fun p => p.2)

/-- Loop body of `FeatureInfoService.expand_group_layers`
(src/src/feature_info_service.py lines 192-222), abstracted over the
recursive group descent `descend`.  The Python code walks
`requested_layers` with an index `i` and pairs layer `i` with
`requested_styles[i] if i < len(requested_styles) else ''`; traversing both
lists head by head with `headD ""` is the same pairing.  For a permitted
group layer it filters the children to the permitted ones, repeats the
group's style for each kept child and descends; for a permitted leaf layer
it emits the `(layer, style)` pair; a non-permitted layer is dropped.
The Python recursion has no depth bound (the configuration is assumed
acyclic); the embedding makes termination explicit with a `fuel` bound on
group-nesting depth in `expandGroupLayers` below, `fuel = 0` being
unreachable for acyclic configurations of depth below the bound. -/
def expandLoop (descend : List String → List String → List (String × String))
    (groupLayers : List (String × List String)) (permittedLayers : List String) :
    List String → List String → List (String × String)
  | [], _ => []
  | layer :: restLayers, styles =>
    let style := styles.headD ""
    let expandedHead :=
      if permittedLayers.contains layer then
        match lookupGroup groupLayers layer with
        | some children =>
          let subs := children.filter (fun c => permittedLayers.contains c)
          descend subs (List.replicate subs.length style)
        | none => [(layer, style)]
      else []
    expandedHead ++
      expandLoop descend groupLayers permittedLayers restLayers styles.tail

/-- Fuel-indexed entry point: at depth `fuel + 1` a group descends into the
expansion at depth `fuel`; at depth `0` a group expands to nothing (the
unreachable fuel-exhaustion case). -/
def expandGroupLayers : Nat → List String → List String →
    List (String × List String) → List String → List (String × String)
  | 0, requestedLayers, requestedStyles, groupLayers, permittedLayers =>
    expandLoop (fun _ _ => []) groupLayers permittedLayers
      requestedLayers requestedStyles
  | fuel + 1, requestedLayers, requestedStyles, groupLayers, permittedLayers =>
    expandLoop
      (fun subs substyles =>
        expandGroupLayers fuel subs substyles groupLayers permittedLayers)
      groupLayers permittedLayers requestedLayers requestedStyles

/-! ## Permission merge (`FeatureInfoService.layer_permissions`) -/

/-- Layer entry of one permission grant (`permission['layers']` item). -/
structure PermLayerEntry where
  name : String
  attributes : List String
  info_attributes : Option (List String)
  info_template : Option Bool
  queryable : Option Bool
deriving DecidableEq

/-- Permission grant returned by the permission source for the WMS
(one element of `wms_permissions`). -/
structure PermGrant where
  layers : List PermLayerEntry
deriving DecidableEq

/-- Merged layer permission record returned by `layer_permissions`. -/
structure LayerPermissions where
  attributes : Finset String
  info_template : Bool
  queryable : Bool
deriving DecidableEq

/-- Inner loop of `layer_permissions`: scan `permission['layers']` and stop
at the first entry whose `name` equals the requested layer (`break`). -/
def findLayerEntry (layer : String) (grant : PermGrant) : Option PermLayerEntry :=
  grant.layers.find? (fun l => l.name = layer)

/-- Attribute contribution of one matching entry: the explicit
`info_attributes` list when the key is present, the general `attributes`
list otherwise (src/src/feature_info_service.py lines 753-756). -/
def entryAttributes (l : PermLayerEntry) : Finset String :=
  match l.info_attributes with
  | some ia => ia.toFinset
  | none => l.attributes.toFinset

/-- Accumulator update for one grant with a matching layer entry. -/
def mergeEntry (acc : LayerPermissions) (l : PermLayerEntry) : LayerPermissions :=
  { attributes := acc.attributes ∪ entryAttributes l,
    info_template := acc.info_template || l.info_template.getD false,
    queryable := acc.queryable || l.queryable.getD true }

/-- Embedding of `FeatureInfoService.layer_permissions`
(src/src/feature_info_service.py lines 732-765): fold over the grants,
each grant contributing its first entry matching the layer; attribute sets
union, the info-template flag ORs with default `False`, the queryable flag
ORs with default `True`.  The Python function returns the attribute set as
`sorted(list(...))`; only membership in it is consumed, so the set itself
is kept. -/
def layer_permissions (wms_permissions : List PermGrant) (layer : String) :
    LayerPermissions :=
  wms_permissions.foldl
    (fun acc grant =>
      match findLayerEntry layer grant with
      | some l => mergeEntry acc l
      | none => acc)
    { attributes := ∅, info_template := false, queryable := false }

/-- Grant entries that match the layer, in grant order (the claim's
"matching grants", each contributing its first matching entry). -/
def matchingEntries (wms_permissions : List PermGrant) (layer : String) :
    List PermLayerEntry :=
  wms_permissions.filterMap (findLayerEntry layer)

/-- Merged permissions as the specification words them: union of the
per-grant attribute contributions, OR of the info-template flags
(default false), OR of the queryable flags (default true). -/
def layerPermissionsSpec (wms_permissions : List PermGrant) (layer : String) :
    LayerPermissions :=
  { attributes :=
      (matchingEntries wms_permissions layer).foldr
        (fun l acc => entryAttributes l ∪ acc) ∅,
    info_template :=
      (matchingEntries wms_permissions layer).any
        (fun l => l.info_template.getD false),
    queryable :=
      (matchingEntries wms_permissions layer).any
        (fun l => l.queryable.getD true) }

/-! ## Python values -/

/-- Python values flowing through the attribute pipeline: strings, ints,
dates and datetimes (as produced by `CONVERSION_RULES`), `None`, and float
literals (kept as their source text: floating point itself is external to
the embedding and no claim touches it). -/
inductive PyValue where
  | str (s : String)
  | int (n : Int)
  | date (y m d : Nat)
  | datetime (y mo d h mi s micro : Nat)
  | none
  | floatLit (lit : String)
deriving DecidableEq

/-! ## Database adapter (`info_modules/sql/layer_info.py`) -/

/-- Raw feature as produced by a provider adapter: the dict
`{'id': ..., 'attributes': [{'name': ..., 'value': ...}, ...],
'bbox': ..., 'geometry': ...}`. -/
structure RawFeature where
  id : Option PyValue
  attributes : List (String × PyValue)
  bbox : Option (String × String × String × String)
  geometry : Option PyValue
deriving DecidableEq

/-- Provider result dict: `{'error': ...}` or `{'features': [...]}`;
`get_layer_info` probes both keys with `info.get`, so both are carried
(with the Python `get` defaults). -/
structure InfoResult where
  error : Option String := Option.none
  features : List RawFeature := []
deriving DecidableEq

/-- Row-mapping loop of the database adapter
(src/src/info_modules/sql/layer_info.py lines 50-70): walk the row's
columns in order; a `_fid_` column overwrites the feature id (initially
the int `0`), a `wkt_geom` column overwrites the geometry (initially
`None`), every other column is appended as an attribute. -/
def mapRowLoop (acc : PyValue × Option PyValue × List (String × PyValue)) :
    List (String × PyValue) → PyValue × Option PyValue × List (String × PyValue)
  | [] => acc
  | (key, v) :: rest =>
    if key = "_fid_" then mapRowLoop (v, acc.2.1, acc.2.2) rest
    else if key = "wkt_geom" then mapRowLoop (acc.1, some v, acc.2.2) rest
    else mapRowLoop (acc.1, acc.2.1, acc.2.2 ++ [(key, v)]) rest

/-- One result row mapped to a `RawFeature` (the `features.append` of the
database adapter; SQL features carry no bbox). -/
def mapRow (row : List (String × PyValue)) : RawFeature :=
  let m := mapRowLoop (.int 0, Option.none, []) row
  { id := some m.1, attributes := m.2.2, bbox := Option.none,
    geometry := m.2.1 }

/-- Stages of the database adapter's `try` body at which an exception can
be raised: engine construction, `db.connect()`, `conn.begin()`,
`conn.execute(...)`, and iteration over the result rows. -/
inductive SqlStage where
  | engine
  | connect
  | beginTrans
  | execute
  | fetchRows
deriving DecidableEq

/-- Connection/transaction state of one database-adapter invocation. -/
structure DbState where
  connected : Bool
  transactionBegun : Bool
  rolledBack : Bool
  closed : Bool
deriving DecidableEq

/-- Error text returned for an exception at the given stage (the code
returns `{'error': e}` with the caught exception; only its non-emptiness
matters downstream). -/
def sqlErrorMsg : SqlStage → String
  | .engine => "engine exception"
  | .connect => "connect exception"
  | .beginTrans => "begin exception"
  | .execute => "execute exception"
  | .fetchRows => "row iteration exception"

/-- Result and final resource state of one database-adapter invocation. -/
structure SqlOutcome where
  result : InfoResult
  state : DbState
deriving DecidableEq

/-- Embedding of the database adapter `layer_info`
(src/src/info_modules/sql/layer_info.py lines 23-86).  Exception control
flow is explicit: `failAt` says at which stage of the `try` body an
exception is raised (`Option.none` for the success path); the single
`except Exception` clause turns it into an error result, with no `finally`
block, so the code reached after a raise is skipped.  `trans.rollback()`
and `conn.close()` are the last two statements of the `try` body and run
only on the success path. -/
def sql_layer_info (failAt : Option SqlStage)
    (rows : List (List (String × PyValue))) : SqlOutcome :=
  let st0 : DbState :=
    { connected := false, transactionBegun := false,
      rolledBack := false, closed := false }
  if failAt = some .engine then
    { result := { error := some (sqlErrorMsg .engine) }, state := st0 }
  else if failAt = some .connect then
    { result := { error := some (sqlErrorMsg .connect) }, state := st0 }
  else
    let st1 := { st0 with connected := true }
    if failAt = some .beginTrans then
      { result := { error := some (sqlErrorMsg .beginTrans) }, state := st1 }
    else
      let st2 := { st1 with transactionBegun := true }
      if failAt = some .execute then
        { result := { error := some (sqlErrorMsg .execute) }, state := st2 }
      else if failAt = some .fetchRows then
        { result := { error := some (sqlErrorMsg .fetchRows) }, state := st2 }
      else
        let st3 := { st2 with rolledBack := true, closed := true }
        { result := { features := rows.map mapRow }, state := st3 }

/-! ## Per-feature template rendering loop (`get_layer_info`) -/

/-- Outcome of evaluating the feature template for one feature through the
external templating capability: rendered HTML, or a caught
`TemplateSyntaxError`/`TemplateError` message. -/
inductive TemplateOutcome where
  | ok (html : String)
  | err (msg : String)
deriving DecidableEq

/-- Inline error fragment substituted for failed content
(src/src/feature_info_service.py lines 381-384 and 442-445). -/
def errorSpan (msg : String) : String :=
  "<span class=\"info_error\" style=\"color: red\">" ++ msg ++ "</span>"

/-- Per-feature slice of the rendering loop of `get_layer_info`
(src/src/feature_info_service.py lines 403-445), restricted to the
`html_content` each feature receives.  `error_msg` is initialized to
`None` once, before the loop (line 313), and never reset inside it; each
iteration sets `info_html = None`, renders (an exception stores its
message in `error_msg`), and then — whenever `error_msg` is not `None`,
even from an earlier iteration — replaces `info_html` with the inline
error fragment. -/
def renderFeatureLoop (error_msg : Option String) :
    List TemplateOutcome → List String
  | [] => []
  | outcome :: rest =>
    let error_msg2 : Option String :=
      match outcome with
      | .ok _ => error_msg
      | .err e => some e
    let info_html : String :=
      match error_msg2 with
      | some e => errorSpan e
      | Option.none =>
        match outcome with
        | .ok h => h
        | .err _ => ""
    info_html :: renderFeatureLoop error_msg2 rest

/-! ## JSON alias normalization (`parse_value` / `InfoFeature.add`) -/

/-- Reordering of one parsed JSON list item under a `json_attribute_aliases`
spec (src/src/feature_info_service.py lines 498-510): keys named in the
alias spec first, in alias-spec order, then any remaining keys in the
item's own order; values unchanged and key names unchanged (the alias
strings are display names used only at template render time).  The alias
spec is an `OrderedDict`, so its keys are distinct. -/
def reorderJsonItem {α : Type} (json_aliases : List (String × String))
    (json_item : List (String × α)) : List (String × α) :=
  (json_aliases.filterMap (fun ka =>
      (json_item.find? (fun p => p.1 = ka.1)).map (fun p => (ka.1, p.2)))) ++
    (json_item.filter (fun p => !(json_aliases.any (fun ka => ka.1 = p.1))))

/-- List branch of `parse_value` (src/src/feature_info_service.py lines
495-510): with a `json_aliases` spec present, a JSON value parsed to a
list is rebuilt item by item. -/
def parse_value_list {α : Type} (json_aliases : List (String × String))
    (json_value : List (List (String × α))) : List (List (String × α)) :=
  json_value.map (reorderJsonItem json_aliases)

/-! ## Value formatter (`info_modules/wms/layer_info.py`, `formatted_value`) -/

/-- Numeric value of a list of decimal digit characters. -/
def digitsToNat (cs : List Char) : Nat :=
  cs.foldl (fun n c => 10 * n + (c.toNat - 48)) 0

/-- Prefix test on the character lists (Python `str.startswith`; the
`String` library's byte-based functions do not reduce definitionally, so
the embedding works on `String.data` throughout). -/
def startsWithChars (pre s : String) : Bool :=
  pre.data.isPrefixOf s.data

/-- Suffix test on the character lists (Python `str.endswith`). -/
def endsWithChars (suf s : String) : Bool :=
  suf.data.reverse.isPrefixOf s.data.reverse

/-- Parse of Python `int(s)` restricted to plain signed decimal literals
(leading `+`, surrounding whitespace and underscores also succeed in
Python; this branch is outside every claim). -/
def parseIntChars : List Char → Option Int
  | [] => Option.none
  | '-' :: ds =>
    if !ds.isEmpty && ds.all Char.isDigit then some (-(digitsToNat ds : Int))
    else Option.none
  | ds =>
    if ds.all Char.isDigit then some ((digitsToNat ds : Int)) else Option.none

/-- Test for the regex of the third conversion rule,
`^\d{4}-\d{2}-\d{2}$` (an ISO date shape). -/
def matchDateChars : List Char → Bool
  | [y1, y2, y3, y4, '-', m1, m2, '-', d1, d2] =>
    [y1, y2, y3, y4, m1, m2, d1, d2].all Char.isDigit
  | _ => false

/-- Test for the regex of the second conversion rule (an ISO datetime shape
without fractional seconds). -/
def matchDateTimeChars : List Char → Bool
  | [y1, y2, y3, y4, '-', m1, m2, '-', d1, d2, 'T',
      h1, h2, ':', n1, n2, ':', s1, s2] =>
    [y1, y2, y3, y4, m1, m2, d1, d2, h1, h2, n1, n2, s1, s2].all Char.isDigit
  | _ => false

/-- Test for the regex of the first conversion rule (ISO datetime with one
to six fractional-second digits). -/
def matchDateTimeMicroChars (cs : List Char) : Bool :=
  matchDateTimeChars (cs.take 19) &&
    (match cs.drop 19 with
     | '.' :: frac =>
       decide (1 ≤ frac.length) && decide (frac.length ≤ 6) &&
         frac.all Char.isDigit
     | _ => false)

/-- Gregorian leap-year test (as validated by `datetime.strptime`). -/
def isLeapYear (y : Nat) : Bool :=
  y % 4 = 0 && (y % 100 ≠ 0 || y % 400 = 0)

/-- Days in a month, for `strptime`'s day-of-month validation. -/
def daysInMonth (y m : Nat) : Nat :=
  if m = 2 then (if isLeapYear y then 29 else 28)
  else if m = 4 ∨ m = 6 ∨ m = 9 ∨ m = 11 then 30
  else 31

/-- Range validation performed by `datetime.strptime`/`date`: a year below
1 or an out-of-range month or day raises `ValueError`. -/
def validDate (y m d : Nat) : Bool :=
  1 ≤ y && 1 ≤ m && m ≤ 12 && 1 ≤ d && d ≤ daysInMonth y m

/-- Range validation for the time components (hour 0-23, minute and second
0-59). -/
def validTime (h mi s : Nat) : Bool :=
  h ≤ 23 && mi ≤ 59 && s ≤ 59

/-- Conversion of the third rule, `datetime.strptime(..., "%Y-%m-%d").date()`:
`Option.none` models the `ValueError` that an out-of-range component
raises (it is not caught anywhere in `formatted_value`). -/
def toDate (cs : List Char) : Option PyValue :=
  match cs with
  | [y1, y2, y3, y4, '-', m1, m2, '-', d1, d2] =>
    let y := digitsToNat [y1, y2, y3, y4]
    let m := digitsToNat [m1, m2]
    let d := digitsToNat [d1, d2]
    if validDate y m d then some (.date y m d) else Option.none
  | _ => Option.none

/-- Conversion of the second rule,
`datetime.strptime(..., "%Y-%m-%dT%H:%M:%S")`. -/
def toDateTime (cs : List Char) : Option PyValue :=
  match cs with
  | [y1, y2, y3, y4, '-', m1, m2, '-', d1, d2, 'T',
      h1, h2, ':', n1, n2, ':', s1, s2] =>
    let y := digitsToNat [y1, y2, y3, y4]
    let mo := digitsToNat [m1, m2]
    let d := digitsToNat [d1, d2]
    let h := digitsToNat [h1, h2]
    let mi := digitsToNat [n1, n2]
    let s := digitsToNat [s1, s2]
    if validDate y mo d && validTime h mi s then
      some (.datetime y mo d h mi s 0)
    else Option.none
  | _ => Option.none

/-- Conversion of the first rule: as `toDateTime`, plus `%f` fractional
seconds, zero-padded on the right to microseconds. -/
def toDateTimeMicro (cs : List Char) : Option PyValue :=
  match toDateTime (cs.take 19) with
  | some (.datetime y mo d h mi s _) =>
    (match cs.drop 19 with
     | '.' :: frac =>
       some (.datetime y mo d h mi s (digitsToNat frac * 10 ^ (6 - frac.length)))
     | _ => Option.none)
  | _ => Option.none

/-- The ordered `CONVERSION_RULES` list
(src/info_modules/wms/layer_info.py lines 178-188): each rule is a regex
test and a conversion; the integer and float rules are commented out in
the source and therefore absent here too. -/
def conversionRules : List ((String → Bool) × (String → Option PyValue)) :=
  [ (fun s => matchDateTimeMicroChars s.data, fun s => toDateTimeMicro s.data),
    (fun s => matchDateTimeChars s.data, fun s => toDateTime s.data),
    (fun s => matchDateChars s.data, fun s => toDate s.data),
    (fun s => s = "NULL", fun _ => some .none) ]

/-- First-match application of the conversion rules (the `for rule in
CONVERSION_RULES ... break` loop): a value matching no rule stays a
string; `Option.none` propagates a conversion `ValueError`. -/
def applyConversionRules (value : String) :
    List ((String → Bool) × (String → Option PyValue)) → Option PyValue
  | [] => some (.str value)
  | (test, conv) :: rest =>
    if test value then conv value else applyConversionRules value rest

/-- Python truthiness for the modelled values (used by the
lookup-table branch's `lookup.get(value) or value`).  Float-literal
truthiness (only reachable through an explicitly configured float format)
is not refined. -/
def pyTruthy : PyValue → Bool
  | .str s => s ≠ ""
  | .int n => n ≠ 0
  | .none => false
  | .date _ _ _ => true
  | .datetime _ _ _ _ _ _ _ => true
  | .floatLit _ => true

/-- Crude test under which `float(s)` succeeds: plain decimal literals
with an optional sign.  Exponents, underscores and surrounding whitespace
also succeed in Python but the float branch is outside every claim. -/
def isPyFloatString (s : String) : Bool :=
  let cs :=
    match s.data with
    | c :: rest => if c = '-' ∨ c = '+' then rest else s.data
    | [] => []
  !cs.isEmpty && cs.all (fun c => c.isDigit || c = '.') &&
    decide ((cs.filter (fun c => c = '.')).length ≤ 1) && cs.any Char.isDigit

/-- Two-digit zero-padded rendering used by `strftime`'s `%d`, `%m`, `%H`,
`%M`, `%S`. -/
def pad2 (n : Nat) : String :=
  (if n < 10 then "0" else "") ++ toString n

/-- Python's `format` builtin, modelled on the two patterns the service's
default formats produce (`%d.%m.%Y` for dates, `%d.%m.%Y %H:%M:%S` for
datetimes).  `Option.none` stands for any other `(value, format)`
combination, which the caller treats through its caught-exception
fallback; zero-padding of years below 1000 is platform-defined in
`strftime` and no claim touches it. -/
def pyFormat : PyValue → String → Option PyValue
  | .date y m d, "%d.%m.%Y" =>
    some (.str (pad2 d ++ "." ++ pad2 m ++ "." ++ toString y))
  | .datetime y mo d h mi s _, "%d.%m.%Y %H:%M:%S" =>
    some (.str (pad2 d ++ "." ++ pad2 mo ++ "." ++ toString y ++ " " ++
      pad2 h ++ ":" ++ pad2 mi ++ ":" ++ pad2 s))
  | _, _ => Option.none

/-- Embedding of `formatted_value`
(src/info_modules/wms/layer_info.py lines 191-239).  `jsonLookup` stands
for the external JSON library behind the lookup-table branch
(`json.loads(formatstr)` followed by `lookup.get(value)`, `Option.none`
for a missing key); a `formatstr` of Python `None` or `""` is falsy at
every use, so both are the empty-string case here.  The result is
`Option.none` exactly when a conversion `ValueError` escapes (nothing in
`formatted_value` catches the date rules' `strptime`). -/
def formatted_value (jsonLookup : String → PyValue → Option PyValue)
    (value : String) (formatstr : Option String) : Option PyValue :=
  match applyConversionRules value conversionRules with
  | Option.none => Option.none
  | some v0 =>
    let fs0 := formatstr.getD ""
    -- Convert value according to type spec in format
    let v1 : PyValue :=
      if fs0 ≠ "" then
        match v0 with
        | .str s =>
          (match fs0.data.getLast? with
           | some c =>
             if "bcdoxXn".data.contains c then
               (match parseIntChars s.data with
                | some n => .int n
                | Option.none => .str s)
             else if "eEfFgGn%".data.contains c then
               (if isPyFloatString s then .floatLit s else .str s)
             else .str s
           | Option.none => .str s)
        | v => v
      else v0
    -- Add default formats for some types
    let fs1 : String :=
      if fs0 ≠ "" then fs0
      else
        match v1 with
        | .datetime _ _ _ _ _ _ _ => "%d.%m.%Y %H:%M:%S"
        | .date _ _ _ => "%d.%m.%Y"
        | _ => ""
    -- Apply NULL value default format
    let v2 : PyValue :=
      match v1 with
      | .none => .str "-"
      | v => v
    -- Return unformatted
    if fs1 = "" then some v2
    else if startsWithChars "\x7b" fs1 then
      -- JSON dict as lookup table
      match jsonLookup fs1 v2 with
      | some out => some (if pyTruthy out then out else v2)
      | Option.none => some v2
    else
      match pyFormat v2 fs1 with
      | some out => some out
      | Option.none => some v2

/-! ## Render-time value transform (`FeatureInfoService.render_value`) -/

/-- Double-quote character. -/
def dquote : Char := Char.ofNat 34

/-- Single-quote character. -/
def squote : Char := Char.ofNat 39

/-- Expansion of one character under Python `html.escape` (with quote
escaping, the default).  The sequential `str.replace` passes of
`html.escape` are equivalent to this single character-wise map because no
replacement output is re-scanned by a later pass of the source's
replacement order. -/
def escapeChar (c : Char) : List Char :=
  if c = '&' then "&amp;".data
  else if c = '<' then "&lt;".data
  else if c = '>' then "&gt;".data
  else if c = dquote then "&quot;".data
  else if c = squote then "&#x27;".data
  else [c]

/-- Python `html.escape(value)`. -/
def htmlEscapeStr (s : String) : String :=
  ⟨s.data.flatMap escapeChar⟩

/-- Replacement `value.replace("\n", "<br />")`. -/
def replaceNewlines (s : String) : String :=
  ⟨s.data.flatMap (fun c => if c = '\n' then "<br />".data else [c])⟩

/-- Characters of the value from just after the leading `<` up to and
including the first `>` of the whole value, when one exists
(`value.find(">")`). -/
def takeToGt : List Char → Option (List Char)
  | [] => Option.none
  | c :: rest =>
    if c = '>' then some [c] else (takeToGt rest).map (fun l => c :: l)

/-- Matcher for the tag-body regex
`("[^"]*"|'[^']*'|[^'">])*>` against the prefix delivered by `takeToGt`
(whose only `>` is its last character): a quoted run must close before the
final `>`, any character other than a quote or `>` is plain content. -/
def validTagBody : List Char → Option Char → Bool
  | [], _ => false
  | c :: rest, some q =>
    if c = q then validTagBody rest Option.none else validTagBody rest (some q)
  | c :: rest, Option.none =>
    if c = '>' then true
    else if c = dquote || c = squote then validTagBody rest (some c)
    else validTagBody rest Option.none

/-- Guard of `render_value` (src/src/feature_info_service.py line 531):
the value begins with `<`, contains a `>`, and the prefix up to the first
`>` matches the complete-HTML-tag regex. -/
def startsWithCompleteTag (value : String) : Bool :=
  match value.data with
  | '<' :: rest =>
    (match takeToGt rest with
     | some pre => validTagBody pre Option.none
     | Option.none => false)
  | _ => false

/-- Lower-cased characters (the rules run under `re.IGNORECASE`). -/
def toLowerChars (s : String) : List Char :=
  s.data.map Char.toLower

/-- Test for the image rule regex
`^(https?:\/\/.*\.(jpg|jpeg|png|bmp))$` (case-insensitive; `.*` matches
anything, so prefix plus suffix characterize the anchored regex). -/
def matchImageUrl (v : String) : Bool :=
  let l : String := ⟨toLowerChars v⟩
  (startsWithChars "http://" l || startsWithChars "https://" l) &&
    (endsWithChars ".jpg" l || endsWithChars ".jpeg" l ||
      endsWithChars ".png" l || endsWithChars ".bmp" l)

/-- Test for the link rule regex `^(https?:\/\/.*)$` (case-insensitive). -/
def matchHttpUrl (v : String) : Bool :=
  let l : String := ⟨toLowerChars v⟩
  startsWithChars "http://" l || startsWithChars "https://" l

/-- Word character of the email regex (Python `\w` also covers non-ASCII
word characters; the ASCII reading suffices for every claim). -/
def isWordChar (c : Char) : Bool :=
  c.isAlphanum || c = '_'

/-- Character class `[\w\-\.]` of the email local part. -/
def isLocalChar (c : Char) : Bool :=
  isWordChar c || c = '-' || c = '.'

/-- Domain part `([\w-]+\.)+[\w-]{2,63}`: at least two dot-separated
labels, every leading label nonempty over `[\w-]`, the final label two to
63 characters over `[\w-]`. -/
def matchEmailDomain (cs : List Char) : Bool :=
  let labels := cs.splitOn '.'
  match labels.getLast? with
  | Option.none => false
  | some last =>
    decide (2 ≤ labels.length) &&
      (labels.dropLast.all (fun l => !l.isEmpty && l.all (fun c => isWordChar c || c = '-'))) &&
      decide (2 ≤ last.length) && decide (last.length ≤ 63) &&
      last.all (fun c => isWordChar c || c = '-')

/-- Matcher for the email rule regex
`^(mailto:)?([\w\-\.]+@([\w-]+\.)+[\w-]{2,63})$`; returns group 2 (the
address without the optional `mailto:` prefix, in original case). -/
def matchEmail (v : String) : Option (List Char) :=
  let rest :=
    if "mailto:".data.isPrefixOf (toLowerChars v) then v.data.drop 7 else v.data
  match rest.splitOn '@' with
  | [loc, dom] =>
    if !loc.isEmpty && loc.all isLocalChar && matchEmailDomain dom then
      some rest
    else Option.none
  | _ => Option.none

/-- Matcher for the attachment rule regex
`^attachment://(.+)/([^/]+)$` (case-insensitive scheme): group 2 is the
nonempty tail after the last `/`, group 1 the nonempty part before it. -/
def matchAttachment (v : String) : Option (List Char × List Char) :=
  if startsWithChars "attachment://" ⟨toLowerChars v⟩ then
    let rest := v.data.drop 13
    let after := (rest.reverse.takeWhile (fun c => c ≠ '/')).reverse
    if decide (after.length < rest.length) && !after.isEmpty &&
        decide (1 ≤ rest.length - after.length - 1) then
      some (rest.take (rest.length - after.length - 1), after)
    else Option.none
  else Option.none

/-- First-match application of the `rules` chain of `render_value`
(src/src/feature_info_service.py lines 537-566): the image rule is only in
the chain when `transform_image_urls` is configured; then the generic link
rule, the email rule, the attachment rule; the first matching rule
rewrites the value with its expansion template and no further rule is
tried. -/
def applyValueRules (transform_image_urls : Bool) (value : String) : String :=
  if transform_image_urls && matchImageUrl value then
    "<a href=\"" ++ value ++ "\" target=\"_blank\"><img src=\"" ++ value ++
      "\" /></a>"
  else if matchHttpUrl value then
    "<a href=\"" ++ value ++ "\" target=\"_blank\">Link</a>"
  else
    match matchEmail value with
    | some em =>
      "<a href=\"mailto:" ++ (⟨em⟩ : String) ++ "\">" ++ (⟨em⟩ : String) ++
        "</a>"
    | Option.none =>
      match matchAttachment value with
      | some (p1, p2) =>
        "<a href=\"" ++ (⟨p1⟩ : String) ++ "/" ++ (⟨p2⟩ : String) ++
          "\" target=\"_blank\"><img src=\"" ++ (⟨p1⟩ : String) ++ "/" ++
          (⟨p2⟩ : String) ++ "\" alt=\"" ++ (⟨p2⟩ : String) ++
          "\" style=\"width: 100%\" /></a>"
      | Option.none => value

/-- Embedding of `FeatureInfoService.render_value`
(src/src/feature_info_service.py lines 522-568) on string values: a value
that already begins with a complete HTML tag is returned unchanged and
unescaped; otherwise it is HTML-escaped (unless `htmlEscape` is false),
newlines become `<br />`, and the rule chain rewrites at most once. -/
def render_value (transform_image_urls : Bool) (value : String)
    (htmlEscape : Bool) : String :=
  if startsWithCompleteTag value then value
  else
    applyValueRules transform_image_urls
      (replaceNewlines (if htmlEscape then htmlEscapeStr value else value))

/-! ## Remote WMS adapter (`info_modules/wms/layer_info.py`, `layer_info`) -/

/-- Sequencing of a fallible map over a list (`Option`-monadic map,
written out so that it unfolds structurally): the Python analogue is a
loop whose body may raise. -/
def mapOptionM {α β : Type} (f : α → Option β) : List α → Option (List β)
  | [] => some []
  | x :: xs =>
    match f x, mapOptionM f xs with
    | some y, some ys => some (y :: ys)
    | _, _ => Option.none

/-- Parsed `<Attribute>` element of the upstream GetFeatureInfo response
(`getAttribute` returns `""` for a missing attribute). -/
structure XmlAttr where
  name : String
  value : String
  type : String
deriving DecidableEq

/-- Parsed `<Feature>` element: its id attribute, its `<Attribute>`
elements in document order, its `<BoundingBox>` elements. -/
structure XmlFeature where
  id : String
  attrEls : List XmlAttr
  bboxEls : List (String × String × String × String)
deriving DecidableEq

/-- Parsed `<Layer>` element: its `<Feature>` elements and — for the
raster case, where it has no `<Feature>` elements — its own `<Attribute>`
elements. -/
structure XmlLayer where
  featureEls : List XmlFeature
  attrEls : List XmlAttr
deriving DecidableEq

/-- Configuration and permission inputs of the WMS adapter; the two flags
are the `SKIP_EMPTY_ATTRIBUTES` and `USE_PERMISSION_ATTRIBUTE_ORDER`
switches. -/
structure WmsConfig where
  permitted_attributes : List String
  attribute_aliases : List (String × String)
  attribute_formats : List (String × String)
  skip_empty : Bool
  permissionOrder : Bool

/-- Reverse alias lookup `alias_attributes.get(info_name, info_name)`
(src/info_modules/wms/layer_info.py lines 43-45, 97): the dict built by
iterating `attribute_aliases` maps an alias to the last name declaring it;
a name that is no alias maps to itself. -/
def aliasToName (attribute_aliases : List (String × String))
    (info_name : String) : String :=
  match (attribute_aliases.filter (fun p => p.2 = info_name)).getLast? with
  | some p => p.1
  | Option.none => info_name

/-- Assignment `info_attributes[name] = value` on an `OrderedDict`: an
existing key keeps its position and takes the new value, a new key is
appended. -/
def upsert (m : List (String × String)) (k : String) (v : String) :
    List (String × String) :=
  if m.any (fun p => p.1 = k) then
    m.map (fun p => if p.1 = k then (k, v) else p)
  else m ++ [(k, v)]

/-- Attribute-parsing loop of the vector branch
(src/info_modules/wms/layer_info.py lines 92-107): resolve a possible
alias back to the attribute name, keep only permitted names, optionally
skip empty/`NULL`/`null` values, divert a derived `geometry` attribute,
and collect the rest into the ordered `info_attributes` dict. -/
def collectLoop (cfg : WmsConfig)
    (acc : List (String × String) × Option String) :
    List XmlAttr → List (String × String) × Option String
  | [] => acc
  | a :: rest =>
    let name := aliasToName cfg.attribute_aliases a.name
    let acc2 :=
      if cfg.permitted_attributes.contains name then
        if (a.value = "" || a.value = "NULL" || a.value = "null") &&
            cfg.skip_empty then acc
        else if name = "geometry" && a.type = "derived" then
          (acc.1, some a.value)
        else (upsert acc.1 name a.value, acc.2)
      else acc
    collectLoop cfg acc2 rest

/-- Emission order of the collected attributes
(src/info_modules/wms/layer_info.py lines 109-130): with
`USE_PERMISSION_ATTRIBUTE_ORDER`, the permitted-attribute configured
order filtered to collected names; otherwise the collected insertion
order filtered (redundantly, they were filtered on collection) to
permitted names. -/
def orderedNames (cfg : WmsConfig) (info_attributes : List (String × String)) :
    List String :=
  if cfg.permissionOrder then
    cfg.permitted_attributes.filter
      (fun n => info_attributes.any (fun p => p.1 = n))
  else
    (info_attributes.map Prod.fst).filter
      (fun n => cfg.permitted_attributes.contains n)

/-- Value formatting of the emission loops: each emitted name is paired
with `formatted_value(info_attributes.get(name), attribute_formats.get(name))`;
an `Option.none` from `formatted_value` is a `ValueError` escaping into
the adapter's blanket `except`. -/
def buildAttrValues (jl : String → PyValue → Option PyValue) (cfg : WmsConfig)
    (info_attributes : List (String × String)) (names : List String) :
    Option (List (String × PyValue)) :=
  mapOptionM (fun n =>
    (formatted_value jl
        (((info_attributes.find? (fun p => p.1 = n)).map Prod.snd).getD "")
        (some (((cfg.attribute_formats.find? (fun p => p.1 = n)).map
          Prod.snd).getD ""))).map (fun v => (n, v))) names

/-- One `<Feature>` element of the vector branch
(src/info_modules/wms/layer_info.py lines 85-146): parse and filter the
attributes, take the last `<BoundingBox>` element, and append the feature
only if its attribute list is nonempty (`if attributes:`); the inner
`Option.none` is the omitted feature, the outer one an escaping
exception. -/
def parseVectorFeature (jl : String → PyValue → Option PyValue)
    (cfg : WmsConfig) (fe : XmlFeature) : Option (Option RawFeature) :=
  let collected := collectLoop cfg ([], Option.none) fe.attrEls
  match buildAttrValues jl cfg collected.1 (orderedNames cfg collected.1) with
  | Option.none => Option.none
  | some attrs =>
    some (if attrs.isEmpty then Option.none
      else some
        { id := some (.str fe.id), attributes := attrs,
          bbox := fe.bboxEls.getLast?, geometry := collected.2.map .str })

/-- Raster branch (src/info_modules/wms/layer_info.py lines 147-164): all
`<Attribute>` elements of the layer element become one pseudo-feature,
with no permission filter, no id, no bbox and no geometry. -/
def parseRasterAttributes (jl : String → PyValue → Option PyValue)
    (cfg : WmsConfig) (attrEls : List XmlAttr) :
    Option (List (String × PyValue)) :=
  mapOptionM (fun a =>
    (formatted_value jl a.value
        (some (((cfg.attribute_formats.find? (fun p => p.1 = a.name)).map
          Prod.snd).getD ""))).map (fun v => (a.name, v))) attrEls

/-- Feature collection over the response's `<Layer>` elements
(src/info_modules/wms/layer_info.py lines 81-164): a layer element with
`<Feature>` children takes the vector branch, one with only `<Attribute>`
children the raster branch. -/
def wmsLayerFeatures (jl : String → PyValue → Option PyValue)
    (cfg : WmsConfig) : List XmlLayer → Option (List RawFeature)
  | [] => some []
  | le :: rest =>
    let fs :=
      if !le.featureEls.isEmpty then
        (mapOptionM (parseVectorFeature jl cfg) le.featureEls).map
          (fun l => l.filterMap id)
      else if !le.attrEls.isEmpty then
        (parseRasterAttributes jl cfg le.attrEls).map (fun attrs =>
          [{ id := Option.none, attributes := attrs, bbox := Option.none,
             geometry := Option.none }])
      else some []
    match fs, wmsLayerFeatures jl cfg rest with
    | some l1, some l2 => some (l1 ++ l2)
    | _, _ => Option.none

/-- Embedding of the WMS adapter `layer_info` result on a parsed upstream
document: the whole body runs under one `try`, so any escaping exception
(modelled: a conversion `ValueError`; in the source also network and XML
failures) yields an error result with the formatted exception text, and
never raises to the caller. -/
def wms_layer_info (jl : String → PyValue → Option PyValue) (cfg : WmsConfig)
    (doc : List XmlLayer) : InfoResult :=
  match wmsLayerFeatures jl cfg doc with
  | some fs => { features := fs }
  | Option.none => { error := some "Exception for layer" }

/-! ## Layer rendering decision (`FeatureInfoService.get_layer_info`) -/

/-- Permission filter of the configured attribute list
(src/src/feature_info_service.py lines 274-277). -/
def permittedAttributes (attributes : List String) (lp : LayerPermissions) :
    List String :=
  attributes.filter (fun attr => decide (attr ∈ lp.attributes))

/-- Python truthiness of `info.get('error')`. -/
def errorTruthy : Option String → Bool
  | some s => s ≠ ""
  | Option.none => false

/-- Escaping applied by `xml.dom.minidom` to a text node (`&`, `<`, `>`). -/
def xmlTextEscape (s : String) : String :=
  ⟨s.data.flatMap (fun c =>
    if c = '&' then "&amp;".data
    else if c = '<' then "&lt;".data
    else if c = '>' then "&gt;".data
    else [c])⟩

/-- Embedding of `FeatureInfoService.html_content`
(src/src/feature_info_service.py lines 570-581). -/
def html_content (info_html : String) : String :=
  "<HtmlContent inline=\"1\">" ++ xmlTextEscape info_html ++ "</HtmlContent>"

/-- Feature entry handed to the per-layer wrapper template
(src/src/feature_info_service.py lines 464-470); the error branch's
synthetic feature dict carries only `html_content`, so every other field
is empty there. -/
structure LayerRenderFeature where
  fid : Option PyValue
  html_content : String
  bbox : Option (String × String × String × String)
  wkt_geom : Option PyValue
  attributes : List (String × String)
deriving DecidableEq

/-- Request parameters consumed by the modelled tail of `get_layer_info`:
the `LAYERATTRIBS` allow-list entry for this layer (when the parameter was
sent and names the layer), the configured display field, and the
`with_htmlcontent`/`with_bbox` suppression flags. -/
structure GetLayerInfoParams where
  layerattribs : Option (List String)
  display_field : Option String
  with_htmlcontent : Bool
  with_bbox : Bool

/-- The `LAYERATTRIBS` filter (src/src/feature_info_service.py lines
448-454): when present, keep only attributes named in the allow-list,
extended with the display field. -/
def filterAttributes (layerattribs : Option (List String))
    (display_field : Option String) (attrs : List (String × String)) :
    List (String × String) :=
  match layerattribs with
  | Option.none => attrs
  | some keep0 =>
    let keep := keep0 ++ (match display_field with
      | some df => [df]
      | Option.none => [])
    attrs.filter (fun entry => keep.contains entry.1)

/-- Attribute records accumulated by `InfoFeature.add` over one provider
feature (src/src/feature_info_service.py lines 404-414): every provider
attribute is added — there is no permission check here — under its
original name with its configured alias (default: the name itself).  The
records also carry the parse_value-normalized value and the value's type
name; value normalization never touches the attribute name, and the
name/alias pair is all the claims consume, so only it is tracked. -/
def infoFeatureAttributes (attribute_aliases : List (String × String))
    (feat : RawFeature) : List (String × String) :=
  feat.attributes.map (fun a =>
    (a.1, (((attribute_aliases.find? (fun p => p.1 = a.1)).map Prod.snd).getD
      a.1)))

/-- Rendering decision tail of `get_layer_info`
(src/src/feature_info_service.py lines 375-470) on the provider result:
`Option.none` input (provider returned `None` or a non-dict) skips the
layer; a truthy error renders exactly one synthetic feature whose
`html_content` wraps the inline error fragment; an empty feature list
renders an empty wrapper; otherwise each provider feature is rendered,
`renderOutcome` standing for the per-feature jinja evaluation fed to the
`error_msg`-threading loop `renderFeatureLoop`.  The `GEOMCENTROID`
geometry-centroid reduction (lines 456-462, a call into the external
geometry library that rewrites only `wkt_geom`/`bbox`) is the one part of
this tail left out; no claim mentions it. -/
def get_layer_info_features (renderOutcome : RawFeature → TemplateOutcome)
    (attribute_aliases : List (String × String)) (p : GetLayerInfoParams)
    (info : Option InfoResult) : Option (List LayerRenderFeature) :=
  match info with
  | Option.none => Option.none
  | some info =>
    if errorTruthy info.error then
      some [{ fid := Option.none,
              html_content :=
                html_content (errorSpan ((info.error).getD "")),
              bbox := Option.none, wkt_geom := Option.none,
              attributes := [] }]
    else if info.features.isEmpty then some []
    else
      let htmls := renderFeatureLoop Option.none
        (info.features.map renderOutcome)
      some ((info.features.zip htmls).map (fun fh =>
        { fid := fh.1.id,
          html_content :=
            if p.with_htmlcontent then html_content fh.2 else "",
          bbox := if p.with_bbox then fh.1.bbox else Option.none,
          wkt_geom := fh.1.geometry,
          attributes :=
            filterAttributes p.layerattribs p.display_field
              (infoFeatureAttributes attribute_aliases fh.1) }))

/-! ## Theorems -/

lemma expandLoop_append
    (descend : List String → List String → List (String × String))
    (groupLayers : List (String × List String)) (permitted : List String)
    (l1 l2 s1 s2 : List String) (h : s1.length = l1.length) :
    expandLoop descend groupLayers permitted (l1 ++ l2) (s1 ++ s2) =
      expandLoop descend groupLayers permitted l1 s1 ++
        expandLoop descend groupLayers permitted l2 s2 := by
  induction l1 generalizing s1 with
  | nil =>
    cases s1 with
    | nil => simp [expandLoop]
    | cons s ss => simp at h
  | cons hd tl ih =>
    cases s1 with
    | nil => simp at h
    | cons s ss =>
      simp only [List.length_cons, Nat.add_right_cancel_iff] at h
      simp only [List.cons_append, expandLoop, List.headD_cons, List.tail_cons,
        List.append_eq]
      rw [ih ss h, List.append_assoc]

lemma layer_permissions_go (grants : List PermGrant) (layer : String)
    (acc : LayerPermissions) :
    grants.foldl
      (fun acc grant =>
        match findLayerEntry layer grant with
        | some l => mergeEntry acc l
        | none => acc) acc =
    { attributes :=
        acc.attributes ∪
          (matchingEntries grants layer).foldr
            (fun l a => entryAttributes l ∪ a) ∅,
      info_template :=
        acc.info_template ||
          (matchingEntries grants layer).any (fun l => l.info_template.getD false),
      queryable :=
        acc.queryable ||
          (matchingEntries grants layer).any (fun l => l.queryable.getD true) } := by
  induction grants generalizing acc with
  | nil =>
    simp [matchingEntries]
  | cons g gs ih =>
    cases hg : findLayerEntry layer g with
    | none =>
      simp [matchingEntries, List.filterMap_cons, hg, ih, List.foldl_cons]
    | some l =>
      simp only [List.foldl_cons, hg]
      rw [ih (mergeEntry acc l)]
      simp [matchingEntries, List.filterMap_cons, hg, mergeEntry,
        Finset.union_assoc, Bool.or_assoc]

/-- C6: resolving the request list `[G]` for a permitted group `G` yields
exactly the list obtained by resolving `G`'s immediate children filtered to
the permitted layers, each carrying `G`'s style (one unfolding of the
recursion, hence idempotence under a fixed config and permission
snapshot); and resolution is order-preserving: the expansion of a
concatenated request list is the concatenation of the expansions, so
output order matches input order with group expansion preserving child
declaration order. -/
theorem expand_group_layers_spec :
    (∀ (fuel : Nat) (g s : String) (children : List String)
        (groupLayers : List (String × List String)) (permitted : List String),
        permitted.contains g = true →
        lookupGroup groupLayers g = some children →
        expandGroupLayers (fuel + 1) [g] [s] groupLayers permitted =
          expandGroupLayers fuel
            (children.filter (fun c => permitted.contains c))
            (List.replicate
              (children.filter (fun c => permitted.contains c)).length s)
            groupLayers permitted) ∧
    (∀ (fuel : Nat) (l1 l2 s1 s2 : List String)
        (groupLayers : List (String × List String)) (permitted : List String),
        s1.length = l1.length →
        expandGroupLayers fuel (l1 ++ l2) (s1 ++ s2) groupLayers permitted =
          expandGroupLayers fuel l1 s1 groupLayers permitted ++
            expandGroupLayers fuel l2 s2 groupLayers permitted) := by
  constructor
  · intro fuel g s children groupLayers permitted h1 h2
    have h1m : g ∈ permitted := by simpa using h1
    simp [expandGroupLayers, expandLoop, h1m, h2]
  · intro fuel l1 l2 s1 s2 groupLayers permitted h
    cases fuel with
    | zero =>
      simpa only [expandGroupLayers] using
        expandLoop_append _ groupLayers permitted l1 l2 s1 s2 h
    | succ fuel =>
      simpa only [expandGroupLayers] using
        expandLoop_append _ groupLayers permitted l1 l2 s1 s2 h

/-- Witness for `expand_group_layers_spec` at a concrete configuration:
group `G` with children `a`, `b`, only `G` and `a` permitted. -/
theorem expand_group_layers_spec_witness :
    (["G", "a"].contains "G" = true) ∧
    (lookupGroup [("G", ["a", "b"])] "G" = some ["a", "b"]) ∧
    ((["x"] : List String).length = (["a"] : List String).length) ∧
    (expandGroupLayers 2 ["G"] ["x"] [("G", ["a", "b"])] ["G", "a"] =
      expandGroupLayers 1
        (List.filter (fun c => List.contains ["G", "a"] c) ["a", "b"])
        (List.replicate
          (List.filter (fun c => List.contains ["G", "a"] c) ["a", "b"]).length
          "x")
        [("G", ["a", "b"])] ["G", "a"]) ∧
    (expandGroupLayers 1 (["a"] ++ ["b"]) (["x"] ++ ["y"]) [] ["a", "b"] =
      expandGroupLayers 1 ["a"] ["x"] [] ["a", "b"] ++
        expandGroupLayers 1 ["b"] ["y"] [] ["a", "b"]) :=
  ⟨by decide, by decide, by decide,
    expand_group_layers_spec.1 1 "G" "x" ["a", "b"] [("G", ["a", "b"])]
      ["G", "a"] (by decide) (by decide),
    expand_group_layers_spec.2 1 ["a"] ["b"] ["x"] ["y"] [] ["a", "b"]
      (by decide)⟩

/-- C7: for a layer with at least one matching permission grant, the merged
layer permissions equal the specification's characterization: the union
over matching grants of that grant's info-attributes list when present
(otherwise its general attributes list), the OR over grants of the
info-template flag with default false, and the OR over grants of the
queryable flag where a grant omitting the flag contributes true. -/
theorem layer_permissions_merged (wms_permissions : List PermGrant)
    (layer : String) (h : matchingEntries wms_permissions layer ≠ []) :
    layer_permissions wms_permissions layer =
      layerPermissionsSpec wms_permissions layer := by
  unfold layer_permissions layerPermissionsSpec
  rw [layer_permissions_go]
  simp

/-- Witness for `layer_permissions_merged`: two grants for layer `L`, the
first with general attributes only, the second with explicit info
attributes and explicit flags. -/
theorem layer_permissions_merged_witness :
    (matchingEntries
        [⟨[⟨"L", ["a", "b"], none, none, none⟩]⟩,
          ⟨[⟨"L", ["c"], some ["d"], some true, some false⟩]⟩] "L" ≠ []) ∧
    layer_permissions
        [⟨[⟨"L", ["a", "b"], none, none, none⟩]⟩,
          ⟨[⟨"L", ["c"], some ["d"], some true, some false⟩]⟩] "L" =
      layerPermissionsSpec
        [⟨[⟨"L", ["a", "b"], none, none, none⟩]⟩,
          ⟨[⟨"L", ["c"], some ["d"], some true, some false⟩]⟩] "L" :=
  ⟨by decide,
    layer_permissions_merged
      [⟨[⟨"L", ["a", "b"], none, none, none⟩]⟩,
        ⟨[⟨"L", ["c"], some ["d"], some true, some false⟩]⟩] "L" (by decide)⟩

/-- C2 counter-evidence (code bug): with two features where the first
feature's template evaluation fails and the second succeeds, the code
replaces the second feature's successfully rendered content with the first
feature's inline error fragment, because `error_msg` is never reset inside
the feature loop; a failure after a success, by contrast, leaves the
earlier sibling untouched, and no failure aborts the loop (every feature
still yields an `html_content`). -/
theorem template_error_leaks_to_siblings :
    renderFeatureLoop Option.none [.err "boom", .ok "good"] =
      [errorSpan "boom", errorSpan "boom"] ∧
    renderFeatureLoop Option.none [.ok "good", .err "boom"] =
      ["good", errorSpan "boom"] ∧
    errorSpan "boom" ≠ "good" := by
  decide

/-- C3 counterexample: an exception raised during query execution (after
`conn.begin()`) returns an error result while the transaction is never
rolled back and the connection never closed — the `try` body has no
`finally`, so the claim's "on every failure path" is false. -/
theorem sql_cleanup_counterexample :
    ((sql_layer_info (some .execute) [[("a", .int 1)]]).result.error =
        some (sqlErrorMsg .execute)) ∧
    (sql_layer_info (some .execute) [[("a", .int 1)]]).state.connected = true ∧
    (sql_layer_info (some .execute) [[("a", .int 1)]]).state.transactionBegun
        = true ∧
    (sql_layer_info (some .execute) [[("a", .int 1)]]).state.rolledBack
        = false ∧
    (sql_layer_info (some .execute) [[("a", .int 1)]]).state.closed = false := by
  decide

/-- C3 (amended): on the success path the database adapter always rolls the
transaction back and closes the connection before returning, and returns
the row-mapped features with no error; on a failure path it returns an
error result without performing rollback or close. -/
theorem sql_cleanup_success (rows : List (List (String × PyValue))) :
    (sql_layer_info Option.none rows).state.rolledBack = true ∧
    (sql_layer_info Option.none rows).state.closed = true ∧
    (sql_layer_info Option.none rows).result =
      { error := Option.none, features := rows.map mapRow } := by
  simp [sql_layer_info]

/-- C4 counterexample: normalizing the parsed JSON array `[{"a":1,"b":2}]`
under the alias spec `[a → "A"]` does not yield `[{"A":1,"b":2}]` — the
code never renames keys to their aliases. -/
theorem json_alias_roundtrip_counterexample :
    parse_value_list [("a", "A")] [[("a", (1 : Nat)), ("b", 2)]] ≠
      [[("A", 1), ("b", 2)]] := by
  decide

/-- C4 (amended): normalization under a JSON alias spec reorders each list
item — alias-spec keys first in alias-declared order, leftover keys
appended preserving their relative order — with values unchanged and the
original key names kept (aliases are display names applied only at
template render time): `[{"a":1,"b":2}]` under `[a → "A"]` normalizes to
`[{"a":1,"b":2}]`, and `[{"b":2,"a":1}]` to `[{"a":1,"b":2}]`. -/
theorem json_alias_reorder :
    parse_value_list [("a", "A")] [[("a", (1 : Nat)), ("b", 2)]] =
      [[("a", 1), ("b", 2)]] ∧
    parse_value_list [("a", "A")] [[("b", (2 : Nat)), ("a", 1)]] =
      [[("a", 1), ("b", 2)]] := by
  decide

lemma mapOptionM_mem {α β : Type} (f : α → Option β) (l : List α)
    (l' : List β) (h : mapOptionM f l = some l') :
    ∀ y ∈ l', ∃ x ∈ l, f x = some y := by
  induction l generalizing l' with
  | nil =>
    simp only [mapOptionM, Option.some.injEq] at h
    subst h
    simp
  | cons x xs ih =>
    simp only [mapOptionM] at h
    cases hfx : f x with
    | none => rw [hfx] at h; simp at h
    | some y0 =>
      cases hrest : mapOptionM f xs with
      | none => rw [hfx, hrest] at h; simp at h
      | some ys =>
        rw [hfx, hrest] at h
        simp only [Option.some.injEq] at h
        subst h
        intro y hy
        rcases List.mem_cons.mp hy with hy0 | hy1
        · exact ⟨x, List.mem_cons_self x xs, hy0 ▸ hfx⟩
        · obtain ⟨x', hx', hfx'⟩ := ih ys hrest y hy1
          exact ⟨x', List.mem_cons_of_mem x hx', hfx'⟩

lemma mapOptionM_length {α β : Type} (f : α → Option β) (l : List α)
    (l' : List β) (h : mapOptionM f l = some l') : l'.length = l.length := by
  induction l generalizing l' with
  | nil =>
    simp only [mapOptionM, Option.some.injEq] at h
    subst h
    rfl
  | cons x xs ih =>
    simp only [mapOptionM] at h
    cases hfx : f x with
    | none => rw [hfx] at h; simp at h
    | some y0 =>
      cases hrest : mapOptionM f xs with
      | none => rw [hfx, hrest] at h; simp at h
      | some ys =>
        rw [hfx, hrest] at h
        simp only [Option.some.injEq] at h
        subst h
        simp [ih ys hrest]

lemma parseVectorFeature_some_nonempty
    (jl : String → PyValue → Option PyValue) (cfg : WmsConfig)
    (fe : XmlFeature) (f : RawFeature)
    (h : parseVectorFeature jl cfg fe = some (some f)) : f.attributes ≠ [] := by
  unfold parseVectorFeature at h
  dsimp only at h
  cases hb : buildAttrValues jl cfg (collectLoop cfg ([], Option.none) fe.attrEls).1
      (orderedNames cfg (collectLoop cfg ([], Option.none) fe.attrEls).1) with
  | none => rw [hb] at h; simp at h
  | some attrs =>
    rw [hb] at h
    simp only [Option.some.injEq] at h
    by_cases he : attrs.isEmpty
    · rw [if_pos he] at h; simp at h
    · rw [if_neg he] at h
      cases h
      intro hnil
      exact he (by simp [show attrs = [] from hnil])

lemma orderedNames_mem_permitted (cfg : WmsConfig)
    (m : List (String × String)) (n : String) (h : n ∈ orderedNames cfg m) :
    cfg.permitted_attributes.contains n = true := by
  unfold orderedNames at h
  split at h
  · have hm := List.mem_of_mem_filter h
    simp [List.contains, List.elem_eq_mem, hm]
  · exact (List.mem_filter.mp h).2

lemma buildAttrValues_names (jl : String → PyValue → Option PyValue)
    (cfg : WmsConfig) (m : List (String × String)) (names : List String)
    (attrs : List (String × PyValue))
    (h : buildAttrValues jl cfg m names = some attrs) :
    ∀ a ∈ attrs, a.1 ∈ names := by
  intro a ha
  obtain ⟨n, hn, hfn⟩ := mapOptionM_mem _ names attrs h a ha
  cases hv : formatted_value jl
      (((m.find? (fun p => p.1 = n)).map Prod.snd).getD "")
      (some (((cfg.attribute_formats.find? (fun p => p.1 = n)).map
        Prod.snd).getD "")) with
  | none => rw [hv] at hfn; simp at hfn
  | some v =>
    rw [hv] at hfn
    simp only [Option.map_some', Option.some.injEq] at hfn
    rw [← hfn]
    exact hn

lemma parseVectorFeature_attrs_permitted
    (jl : String → PyValue → Option PyValue) (cfg : WmsConfig)
    (fe : XmlFeature) (f : RawFeature)
    (h : parseVectorFeature jl cfg fe = some (some f)) :
    ∀ a ∈ f.attributes, cfg.permitted_attributes.contains a.1 = true := by
  unfold parseVectorFeature at h
  dsimp only at h
  cases hb : buildAttrValues jl cfg (collectLoop cfg ([], Option.none) fe.attrEls).1
      (orderedNames cfg (collectLoop cfg ([], Option.none) fe.attrEls).1) with
  | none => rw [hb] at h; simp at h
  | some attrs =>
    rw [hb] at h
    simp only [Option.some.injEq] at h
    by_cases he : attrs.isEmpty
    · rw [if_pos he] at h; simp at h
    · rw [if_neg he] at h
      cases h
      intro a ha
      exact orderedNames_mem_permitted cfg _ a.1
        (buildAttrValues_names jl cfg _ _ _ hb a ha)

lemma wmsLayerFeatures_attrs (jl : String → PyValue → Option PyValue)
    (cfg : WmsConfig) (doc : List XmlLayer) (fs : List RawFeature)
    (h : wmsLayerFeatures jl cfg doc = some fs)
    (hdoc : ∀ le ∈ doc, le.featureEls ≠ [] ∨ le.attrEls = []) :
    ∀ f ∈ fs, f.attributes ≠ [] ∧
      ∀ a ∈ f.attributes, cfg.permitted_attributes.contains a.1 = true := by
  induction doc generalizing fs with
  | nil =>
    simp only [wmsLayerFeatures, Option.some.injEq] at h
    subst h
    simp
  | cons le rest ih =>
    simp only [wmsLayerFeatures] at h
    by_cases hfe : le.featureEls.isEmpty
    · have hattr : le.attrEls = [] := by
        rcases hdoc le (List.mem_cons_self le rest) with h1 | h1
        · exact absurd (List.isEmpty_iff.mp hfe) h1
        · exact h1
      rw [if_neg (by simp [hfe]), if_neg (by simp [hattr])] at h
      cases hrest : wmsLayerFeatures jl cfg rest with
      | none => rw [hrest] at h; simp at h
      | some l2 =>
        rw [hrest] at h
        simp only [Option.some.injEq] at h
        subst h
        intro f hf
        simp only [List.nil_append] at hf
        exact ih l2 hrest
          (fun le' hle' => hdoc le' (List.mem_cons_of_mem le hle')) f hf
    · rw [if_pos (by simp [hfe])] at h
      cases hvec : mapOptionM (parseVectorFeature jl cfg) le.featureEls with
      | none => rw [hvec] at h; simp at h
      | some l0 =>
        cases hrest : wmsLayerFeatures jl cfg rest with
        | none => rw [hvec, hrest] at h; simp at h
        | some l2 =>
          rw [hvec, hrest] at h
          simp only [Option.map_some', Option.some.injEq] at h
          subst h
          intro f hf
          rcases List.mem_append.mp hf with hf1 | hf2
          · obtain ⟨of, hof, hid⟩ := List.mem_filterMap.mp hf1
            obtain ⟨fe, hfe', hpf⟩ :=
              mapOptionM_mem _ le.featureEls l0 hvec of hof
            cases hid
            exact ⟨parseVectorFeature_some_nonempty jl cfg fe f hpf,
              parseVectorFeature_attrs_permitted jl cfg fe f hpf⟩
          · exact ih l2 hrest
              (fun le' hle' => hdoc le' (List.mem_cons_of_mem le hle')) f hf2

lemma wmsLayerFeatures_nonempty_attrs (jl : String → PyValue → Option PyValue)
    (cfg : WmsConfig) (doc : List XmlLayer) (fs : List RawFeature)
    (h : wmsLayerFeatures jl cfg doc = some fs) :
    ∀ f ∈ fs, f.attributes ≠ [] := by
  induction doc generalizing fs with
  | nil =>
    simp only [wmsLayerFeatures, Option.some.injEq] at h
    subst h
    simp
  | cons le rest ih =>
    simp only [wmsLayerFeatures] at h
    by_cases hfe : le.featureEls.isEmpty
    · by_cases hattr : le.attrEls.isEmpty
      · rw [if_neg (by simp [hfe]), if_neg (by simp [hattr])] at h
        cases hrest : wmsLayerFeatures jl cfg rest with
        | none => rw [hrest] at h; simp at h
        | some l2 =>
          rw [hrest] at h
          simp only [Option.some.injEq] at h
          subst h
          intro f hf
          simp only [List.nil_append] at hf
          exact ih l2 hrest f hf
      · rw [if_neg (by simp [hfe]), if_pos (by simp [hattr])] at h
        cases hras : parseRasterAttributes jl cfg le.attrEls with
        | none => rw [hras] at h; simp at h
        | some attrs =>
          cases hrest : wmsLayerFeatures jl cfg rest with
          | none => rw [hras, hrest] at h; simp at h
          | some l2 =>
            rw [hras, hrest] at h
            simp only [Option.map_some', Option.some.injEq] at h
            subst h
            intro f hf
            rcases List.mem_append.mp hf with hf1 | hf2
            · simp only [List.mem_singleton] at hf1
              subst hf1
              have hlen := mapOptionM_length _ le.attrEls attrs hras
              show attrs ≠ []
              intro hnil
              rw [hnil] at hlen
              simp only [List.length_nil] at hlen
              exact hattr (by
                simp [List.isEmpty_iff, List.length_eq_zero.mp hlen.symm])
            · exact ih l2 hrest f hf2
    · rw [if_pos (by simp [hfe])] at h
      cases hvec : mapOptionM (parseVectorFeature jl cfg) le.featureEls with
      | none => rw [hvec] at h; simp at h
      | some l0 =>
        cases hrest : wmsLayerFeatures jl cfg rest with
        | none => rw [hvec, hrest] at h; simp at h
        | some l2 =>
          rw [hvec, hrest] at h
          simp only [Option.map_some', Option.some.injEq] at h
          subst h
          intro f hf
          rcases List.mem_append.mp hf with hf1 | hf2
          · obtain ⟨of, hof, hid⟩ := List.mem_filterMap.mp hf1
            obtain ⟨fe, hfe', hpf⟩ :=
              mapOptionM_mem _ le.featureEls l0 hvec of hof
            cases hid
            exact parseVectorFeature_some_nonempty jl cfg fe f hpf
          · exact ih l2 hrest f hf2

/-- C8: conversion rules apply in order, stopping at the first match —
`"2024-01-05"` matches neither datetime rule but matches the date rule,
and with no format specifier is rendered with the default date pattern
(day.month.year) as `"05.01.2024"`; `"NULL"` with no format specifier
becomes the none value and displays as `"-"`.  Both results are
independent of the external JSON-lookup capability. -/
theorem formatted_value_defaults :
    (∀ jl, formatted_value jl "2024-01-05" Option.none =
      some (.str "05.01.2024")) ∧
    (∀ jl, formatted_value jl "NULL" Option.none = some (.str "-")) ∧
    matchDateTimeMicroChars "2024-01-05".data = false ∧
    matchDateTimeChars "2024-01-05".data = false ∧
    matchDateChars "2024-01-05".data = true ∧
    applyConversionRules "2024-01-05" conversionRules =
      some (.date 2024 1 5) ∧
    applyConversionRules "NULL" conversionRules = some .none := by
  refine ⟨fun jl => by unfold formatted_value; rfl,
    fun jl => by unfold formatted_value; rfl,
    by decide, by decide, by decide, by decide, by decide⟩

/-- C9: a string value beginning with a complete HTML tag is returned
unchanged and unescaped; any other string is HTML-escaped (unless escaping
is disabled), has newlines converted to `<br />`, and then gets at most
one rewrite from the fixed-priority rule chain (image URL, generic
http(s) URL, email, attachment); in particular an https image URL with
the image transform enabled becomes an anchor wrapping an img tag
referencing the uncorrupted URL. -/
theorem render_value_spec :
    (∀ (v : String) (t e : Bool), startsWithCompleteTag v = true →
      render_value t v e = v) ∧
    (∀ (v : String) (t e : Bool), startsWithCompleteTag v = false →
      render_value t v e =
        applyValueRules t
          (replaceNewlines (if e then htmlEscapeStr v else v))) ∧
    render_value true "https://x.test/a.png" true =
      "<a href=\"https://x.test/a.png\" target=\"_blank\"><img src=\"https://x.test/a.png\" /></a>" ∧
    render_value true "https://x.test/page" true =
      "<a href=\"https://x.test/page\" target=\"_blank\">Link</a>" := by
  refine ⟨?_, ?_, by decide, by decide⟩
  · intro v t e h
    simp [render_value, h]
  · intro v t e h
    simp [render_value, h]

/-- Witness for `render_value_spec`: the pass-through branch at a value
beginning with a complete tag, and the escape-then-rules branch at a plain
value. -/
theorem render_value_spec_witness :
    (startsWithCompleteTag "<b>bold" = true) ∧
    (render_value true "<b>bold" true = "<b>bold") ∧
    (startsWithCompleteTag "a&b" = false) ∧
    (render_value true "a&b" true =
      applyValueRules true
        (replaceNewlines (if true then htmlEscapeStr "a&b" else "a&b"))) :=
  ⟨by decide, render_value_spec.1 "<b>bold" true true (by decide), by decide,
    render_value_spec.2.1 "a&b" true true (by decide)⟩

lemma mem_filterAttributes (la : Option (List String))
    (df : Option String) (attrs : List (String × String))
    (a : String × String) (h : a ∈ filterAttributes la df attrs) :
    a ∈ attrs := by
  unfold filterAttributes at h
  cases la with
  | none => exact h
  | some keep0 => exact List.mem_of_mem_filter h

lemma mem_infoFeatureAttributes (aliases : List (String × String))
    (feat : RawFeature) (a : String × String)
    (h : a ∈ infoFeatureAttributes aliases feat) :
    ∃ orig ∈ feat.attributes, a.1 = orig.1 := by
  unfold infoFeatureAttributes at h
  obtain ⟨orig, ho, he⟩ := List.mem_map.mp h
  exact ⟨orig, ho, by rw [← he]⟩

lemma mem_permittedAttributes (attrs : List String) (lp : LayerPermissions)
    (n : String) (h : n ∈ permittedAttributes attrs lp) :
    n ∈ lp.attributes := by
  unfold permittedAttributes at h
  simpa using (List.mem_filter.mp h).2

/-- C10: the WMS adapter never returns a feature with an empty attribute
list — a vector feature whose attributes are all filtered away is omitted
by the `if attributes:` guard even when the upstream response carried a
bounding box or derived geometry for it (second conjunct: a concrete
feature with a bounding box and one non-permitted attribute vanishes from
the result). -/
theorem wms_adapter_omits_attributeless_features :
    (∀ (jl : String → PyValue → Option PyValue) (cfg : WmsConfig)
        (doc : List XmlLayer),
      (wms_layer_info jl cfg doc).features.all
        (fun f => !f.attributes.isEmpty) = true) ∧
    wms_layer_info (fun _ _ => Option.none)
        ⟨[], [], [], false, false⟩
        [⟨[⟨"7", [⟨"secret", "v", ""⟩], [("0", "0", "1", "1")]⟩], []⟩] =
      { error := Option.none, features := [] } := by
  constructor
  · intro jl cfg doc
    rw [List.all_eq_true]
    intro f hf
    unfold wms_layer_info at hf
    cases hw : wmsLayerFeatures jl cfg doc with
    | none => rw [hw] at hf; simp at hf
    | some fs =>
      rw [hw] at hf
      simp only at hf
      have := wmsLayerFeatures_nonempty_attrs jl cfg doc fs hw f hf
      simp [List.isEmpty_iff, this]
  · rfl

/-- C5: a provider result with a truthy error renders as exactly one
synthetic feature whose content is the inline error fragment and which
carries no id, no bbox, no geometry and no attribute records (even when
the result also lists features); a provider result with no error and zero
features renders as an empty feature list; in both cases the layer yields
a rendered wrapper (a `some` result, not a skip), so the request as a
whole still succeeds. -/
theorem provider_error_and_empty_render
    (ro : RawFeature → TemplateOutcome) (aliases : List (String × String))
    (p : GetLayerInfoParams) (info : InfoResult) :
    (∀ e, info.error = some e → e ≠ "" →
      get_layer_info_features ro aliases p (some info) =
        some [{ fid := Option.none,
                html_content := html_content (errorSpan e),
                bbox := Option.none, wkt_geom := Option.none,
                attributes := [] }]) ∧
    (errorTruthy info.error = false → info.features = [] →
      get_layer_info_features ro aliases p (some info) = some []) := by
  constructor
  · intro e he hne
    have ht : errorTruthy (some e) = true := by simp [errorTruthy, hne]
    simp [get_layer_info_features, he, ht]
  · intro h1 h2
    simp [get_layer_info_features, h1, h2]

/-- Witness for `provider_error_and_empty_render`: an error result that
also lists a real feature still renders as the single synthetic error
feature; an errorless empty result renders empty. -/
theorem provider_error_and_empty_render_witness :
    ((⟨some "boom",
        [⟨Option.none, [("a", .str "v")], Option.none, Option.none⟩]⟩ :
        InfoResult).error = some "boom") ∧
    ("boom" ≠ "") ∧
    (get_layer_info_features (fun _ => .ok "h") []
        ⟨Option.none, Option.none, true, true⟩
        (some ⟨some "boom",
          [⟨Option.none, [("a", .str "v")], Option.none, Option.none⟩]⟩) =
      some [⟨Option.none, html_content (errorSpan "boom"),
        Option.none, Option.none, []⟩]) ∧
    (errorTruthy ((⟨Option.none, []⟩ : InfoResult)).error = false) ∧
    (get_layer_info_features (fun _ => .ok "h") []
        ⟨Option.none, Option.none, true, true⟩
        (some ⟨Option.none, []⟩) = some []) :=
  ⟨rfl, by decide,
    (provider_error_and_empty_render _ _ _ _).1 "boom" rfl (by decide),
    rfl,
    (provider_error_and_empty_render _ _ _ _).2 rfl rfl⟩

/-- C1 counterexample: a database-provider row with a column `secret` not
in the merged permitted-attribute set for the layer still surfaces
`secret` among the rendered attribute names — the database path of
`get_layer_info` adds every provider attribute without a permission
check. -/
theorem rendered_attribute_bypass_counterexample :
    (((get_layer_info_features (fun _ => .ok "h") []
        ⟨Option.none, Option.none, true, true⟩
        (some (sql_layer_info Option.none
          [[("a", .str "1"), ("secret", .str "2")]]).result)).getD []).map
      (fun rf => rf.attributes.map Prod.fst) = [["a", "secret"]]) ∧
    "secret" ∉ (layer_permissions
      [⟨[⟨"L", ["a"], Option.none, Option.none, Option.none⟩]⟩]
      "L").attributes := by
  constructor
  · rfl
  · decide

/-- C1 (amended): for the remote WMS provider, on a response whose layer
elements take the vector branch (no raster fallback), every attribute
name in the rendered layer output lies in the permission-merged
permitted-attribute set for the identity and layer; database and
extension-module feature attributes — and WMS raster pseudo-feature
attributes — are passed through without this filter. -/
theorem wms_rendered_attribute_names_permitted
    (jl : String → PyValue → Option PyValue)
    (ro : RawFeature → TemplateOutcome)
    (aliases fmts : List (String × String)) (p : GetLayerInfoParams)
    (cfgattrs : List String) (perms : List PermGrant) (layer : String)
    (skipEmpty permOrder : Bool) (doc : List XmlLayer)
    (hdoc : ∀ le ∈ doc, le.featureEls ≠ [] ∨ le.attrEls = [])
    (rfs : List LayerRenderFeature)
    (hrender : get_layer_info_features ro aliases p
        (some (wms_layer_info jl
          { permitted_attributes :=
              permittedAttributes cfgattrs (layer_permissions perms layer),
            attribute_aliases := aliases, attribute_formats := fmts,
            skip_empty := skipEmpty, permissionOrder := permOrder } doc)) =
      some rfs) :
    ∀ rf ∈ rfs, ∀ a ∈ rf.attributes,
      a.1 ∈ (layer_permissions perms layer).attributes := by
  intro rf hrf a ha
  set cfg : WmsConfig :=
    { permitted_attributes :=
        permittedAttributes cfgattrs (layer_permissions perms layer),
      attribute_aliases := aliases, attribute_formats := fmts,
      skip_empty := skipEmpty, permissionOrder := permOrder } with hcfg
  simp only [get_layer_info_features] at hrender
  by_cases herr : errorTruthy (wms_layer_info jl cfg doc).error
  · rw [if_pos herr] at hrender
    simp only [Option.some.injEq] at hrender
    subst hrender
    simp only [List.mem_singleton] at hrf
    subst hrf
    exact absurd ha (by simp)
  · rw [if_neg herr] at hrender
    by_cases hempt : (wms_layer_info jl cfg doc).features.isEmpty
    · rw [if_pos hempt] at hrender
      simp only [Option.some.injEq] at hrender
      subst hrender
      exact absurd hrf (by simp)
    · rw [if_neg hempt] at hrender
      simp only [Option.some.injEq] at hrender
      subst hrender
      obtain ⟨fh, hfh, rfeq⟩ := List.mem_map.mp hrf
      obtain ⟨feat, htmlstr⟩ := fh
      subst rfeq
      have ha2 : a ∈ filterAttributes p.layerattribs p.display_field
          (infoFeatureAttributes aliases feat) := ha
      have h1 := mem_filterAttributes _ _ _ _ ha2
      obtain ⟨orig, horig, haeq⟩ := mem_infoFeatureAttributes aliases feat a h1
      have hfeat : feat ∈ (wms_layer_info jl cfg doc).features :=
        (List.of_mem_zip hfh).1
      unfold wms_layer_info at hfeat
      cases hw : wmsLayerFeatures jl cfg doc with
      | none => rw [hw] at hfeat; simp at hfeat
      | some fs =>
        rw [hw] at hfeat
        simp only at hfeat
        have hperm := (wmsLayerFeatures_attrs jl cfg doc fs hw hdoc feat
          hfeat).2 orig horig
        have hmem : orig.1 ∈ permittedAttributes cfgattrs
            (layer_permissions perms layer) := by
          simpa [hcfg, List.contains, List.elem_eq_mem] using hperm
        rw [haeq]
        exact mem_permittedAttributes cfgattrs _ orig.1 hmem

/-- Witness for `wms_rendered_attribute_names_permitted`: one vector layer
with a permitted attribute `a` and a non-permitted attribute `secret`; the
rendered output carries exactly the permitted name. -/
theorem wms_rendered_attribute_names_permitted_witness :
    (∀ le ∈ [(⟨[⟨"1", [⟨"a", "v", ""⟩, ⟨"secret", "2", ""⟩], []⟩], []⟩ :
        XmlLayer)],
      le.featureEls ≠ [] ∨ le.attrEls = []) ∧
    (get_layer_info_features (fun _ => .ok "h") []
        ⟨Option.none, Option.none, true, true⟩
        (some (wms_layer_info (fun _ _ => Option.none)
          ⟨permittedAttributes ["a"]
              (layer_permissions
                [⟨[⟨"L", ["a"], Option.none, Option.none, Option.none⟩]⟩]
                "L"),
            [], [], false, false⟩
          [⟨[⟨"1", [⟨"a", "v", ""⟩, ⟨"secret", "2", ""⟩], []⟩], []⟩])) =
      some [⟨some (.str "1"), html_content "h", Option.none, Option.none,
        [("a", "a")]⟩]) ∧
    (∀ rf ∈ [(⟨some (.str "1"), html_content "h", Option.none, Option.none,
        [("a", "a")]⟩ : LayerRenderFeature)],
      ∀ a ∈ rf.attributes,
        a.1 ∈ (layer_permissions
          [⟨[⟨"L", ["a"], Option.none, Option.none, Option.none⟩]⟩]
          "L").attributes) := by
  refine ⟨by decide, ?_, ?_⟩
  · decide
  · exact wms_rendered_attribute_names_permitted
      (fun _ _ => Option.none) (fun _ => .ok "h") [] []
      ⟨Option.none, Option.none, true, true⟩
      ["a"] [⟨[⟨"L", ["a"], Option.none, Option.none, Option.none⟩]⟩] "L"
      false false
      [⟨[⟨"1", [⟨"a", "v", ""⟩, ⟨"secret", "2", ""⟩], []⟩], []⟩]
      (by decide) _ (by decide)

end FeatureInfo
